import Mathlib

/-!
Verification of the JSON-backed record store in `src/cache_fixed.py`
(MoneyPrinterV2). The module stores account and product records in JSON
documents under a `.mp` cache directory, with corruption-tolerant reads
and a temp-file write/replace strategy.

The embedding models:
  * JSON values (`Json`), with objects as ordered association lists,
    mirroring Python dict insertion-order semantics;
  * on-disk file contents (`Content`): either a parsed JSON document or
    raw unparsable bytes;
  * the filesystem (`FS`) as a map from path strings to optional contents;
  * the write phase with an injected failure point (`WriteFail`) so that
    failure of the temp-file write, the removal of the old document, or
    the rename step can each be analysed;
  * each public cache operation as a state-passing function returning
    `Except PyErr` results (Python exceptions become `.error`).
-/

namespace Cache

/-- JSON values. Objects are ordered association lists (Python dicts
preserve insertion order); numbers are integers, which suffices for the
record payloads the store handles opaquely. -/
inductive Json where
  | null : Json
  | bool (b : Bool) : Json
  | num (n : Int) : Json
  | str (s : String) : Json
  | arr (xs : List Json) : Json
  | obj (fields : List (String × Json)) : Json

mutual

/-- Python `==` on JSON values (structural equality). -/
def Json.beq : Json → Json → Bool
  | .null, .null => true
  | .bool a, .bool b => a == b
  | .num a, .num b => a == b
  | .str a, .str b => a == b
  | .arr xs, .arr ys => beqList xs ys
  | .obj fs, .obj gs => beqFields fs gs
  | _, _ => false

def beqList : List Json → List Json → Bool
  | [], [] => true
  | x :: xs, y :: ys => Json.beq x y && beqList xs ys
  | _, _ => false

def beqFields : List (String × Json) → List (String × Json) → Bool
  | [], [] => true
  | (k, v) :: xs, (k', v') :: ys => k == k' && Json.beq v v' && beqFields xs ys
  | _, _ => false

end

instance : BEq Json := ⟨Json.beq⟩

/-- Content of an on-disk file: a JSON document (what `json.load` would
return) or raw bytes that do not parse as JSON. -/
inductive Content where
  | json (j : Json) : Content
  | raw (s : String) : Content

/-- Filesystem state: path → optional file content. -/
def FS : Type := String → Option Content

/-- Update one path of the filesystem. -/
def FS.set (fs : FS) (p : String) (c : Option Content) : FS :=
  fun q => if q = p then c else fs q

/-- Empty filesystem. -/
def FS.empty : FS := fun _ => none

theorem FS.set_same (fs : FS) (p : String) (c : Option Content) :
    fs.set p c p = c := by simp [FS.set]

theorem FS.set_other (fs : FS) (p q : String) (c : Option Content)
    (h : q ≠ p) : fs.set p c q = fs q := by simp [FS.set, h]

/-- Python exceptions that the cache code can raise. -/
inductive PyErr where
  | valueError : PyErr
  | typeError : PyErr
  | attributeError : PyErr
deriving DecidableEq

/-- `ROOT_DIR` from `config`; a fixed base path. -/
def ROOT_DIR : String := "/app"

/-- `get_cache_path`: `os.path.join(ROOT_DIR, '.mp')`. -/
def get_cache_path : String := ROOT_DIR ++ "/.mp"

/-- `get_afm_cache_path`. -/
def get_afm_cache_path : String := get_cache_path ++ "/afm.json"

/-- `get_twitter_cache_path`. -/
def get_twitter_cache_path : String := get_cache_path ++ "/twitter.json"

/-- `get_youtube_cache_path`. -/
def get_youtube_cache_path : String := get_cache_path ++ "/youtube.json"

/-- Association-list lookup on object fields (`dict` access). -/
def lookupKey : List (String × Json) → String → Option Json
  | [], _ => none
  | (k', v) :: rest, k => if k' = k then some v else lookupKey rest k

/-- Python `dict.get(k, d)` on a JSON object; `d` if the key is absent. -/
def Json.getD (j : Json) (k : String) (d : Json) : Json :=
  match j with
  | .obj fields => (lookupKey fields k).getD d
  | _ => d

/-- Python `dict.get(k)` (default `None`) on object fields. -/
def getId (fields : List (String × Json)) : Json :=
  (lookupKey fields "id").getD .null

/-- Whether a JSON value is an object (`isinstance(data, dict)`). -/
def Json.isObj : Json → Bool
  | .obj _ => true
  | _ => false

/-- Python `k in dict` on a JSON object. -/
def Json.hasKey (j : Json) (k : String) : Bool :=
  match j with
  | .obj fields => (lookupKey fields k).isSome
  | _ => false

/-- `d[k] = v` on an association list: overwrite the first existing
binding in place, else append — Python dict assignment semantics. -/
def setKey : List (String × Json) → String → Json → List (String × Json)
  | [], k, v => [(k, v)]
  | (k', v') :: rest, k, v =>
      if k' = k then (k, v) :: rest else (k', v') :: setKey rest k v

/-- `d[k] = v` on a JSON object value (callers guarantee an object). -/
def Json.setField (j : Json) (k : String) (v : Json) : Json :=
  match j with
  | .obj fields => .obj (setKey fields k v)
  | _ => j

/-- Python `dict.update(patch)`: apply each patch binding in order;
existing keys keep their position, new keys are appended. -/
def dictUpdate (fields : List (String × Json))
    (patch : List (String × Json)) : List (String × Json) :=
  patch.foldl (fun acc kv => setKey acc kv.1 kv.2) fields

/-- Injected failure point for the write phase of `_write_cache_file`:
no failure, failure while writing the temp file, failure of
`os.remove` on the old document, or failure of `os.rename`. -/
inductive WriteFail where
  | ok : WriteFail
  | tempWrite : WriteFail
  | removeOld : WriteFail
  | rename : WriteFail
deriving DecidableEq

/-- `_write_cache_file(cache_path, data)`: write `data` to
`cache_path + '.tmp'`, remove the old document if present, rename the
temp file into place; on any exception, remove the temp file if it
exists and return `False`. The `fm` argument injects the failure. -/
def write_cache_file (fm : WriteFail) (fs : FS) (cache_path : String)
    (data : Json) : Bool × FS :=
  let temp_path := cache_path ++ ".tmp"
  match fm with
  | .tempWrite =>
      -- json.dump onto the temp file raises partway; cleanup removes
      -- the (partially written) temp file.
      (false, fs.set temp_path none)
  | .removeOld =>
      let fs1 := fs.set temp_path (some (.json data))
      if (fs1 cache_path).isSome then
        -- os.remove(cache_path) raises; cleanup removes the temp file.
        (false, fs1.set temp_path none)
      else
        -- no old document, so os.remove is never attempted: the write
        -- continues and succeeds.
        (true, (fs1.set cache_path (some (.json data))).set temp_path none)
  | .rename =>
      let fs1 := fs.set temp_path (some (.json data))
      let fs2 := if (fs1 cache_path).isSome then fs1.set cache_path none else fs1
      -- os.rename raises after the old document was already removed;
      -- cleanup removes the temp file.
      (false, fs2.set temp_path none)
  | .ok =>
      let fs1 := fs.set temp_path (some (.json data))
      let fs2 := if (fs1 cache_path).isSome then fs1.set cache_path none else fs1
      (true, (fs2.set cache_path (some (.json data))).set temp_path none)

/-- `_ensure_cache_file_exists(cache_path, default_structure)`: create
the file with the default structure when absent. -/
def ensure_cache_file_exists (fs : FS) (cache_path : String)
    (default_structure : Json) : FS :=
  if (fs cache_path).isSome then fs
  else fs.set cache_path (some (.json default_structure))

/-- `_read_cache_file(cache_path, default_structure)`: ensure the file
exists, parse it; on unparsable content or a non-object value return the
default structure (in memory only). -/
def read_cache_file (fs : FS) (cache_path : String)
    (default_structure : Json) : Json × FS :=
  let fs1 := ensure_cache_file_exists fs cache_path default_structure
  match fs1 cache_path with
  | some (.json j) => (if j.isObj then j else default_structure, fs1)
  | some (.raw _) => (default_structure, fs1)
  | none => (default_structure, fs1)

/-- Default document shape for account collections. -/
def account_default : Json := .obj [("accounts", .arr [])]

/-- Default document shape for the product collection. -/
def product_default : Json := .obj [("products", .arr [])]

/-- Cache path selected for a (valid) account provider. -/
def provider_path (provider : String) : String :=
  if provider = "twitter" then get_twitter_cache_path else get_youtube_cache_path

/-- `get_accounts(provider)`: `ValueError` unless provider is `twitter`
or `youtube`; otherwise read the document and return its `accounts`
field (`data.get('accounts', [])`). -/
def get_accounts (provider : String) (fs : FS) : Except PyErr Json × FS :=
  if provider = "twitter" ∨ provider = "youtube" then
    let cache_path := provider_path provider
    let rd := read_cache_file fs cache_path account_default
    (.ok (rd.1.getD "accounts" (.arr [])), rd.2)
  else (.error .valueError, fs)

/-- Record id used in duplicate/remove/update comparisons:
`record.get('id')`, `None` (null) when the record has no `id`. Non-object
elements have no `.get`; callers handle that case separately. -/
def recId (a : Json) : Json :=
  match a with
  | .obj fields => getId fields
  | _ => .null

/-- `[acc.get('id') for acc in accounts]`: collects each record's id,
raising `AttributeError` on a non-dict element. -/
def idsOf : List Json → Except PyErr (List Json)
  | [] => .ok []
  | a :: rest =>
      match a with
      | .obj fields => (idsOf rest).map (fun ids => getId fields :: ids)
      | _ => .error .attributeError

/-- `add_account(provider, account)`: validate provider and the `id`
field, reject a duplicate id (returning `False` without writing), else
append the account and write the document back. A non-list `accounts`
value makes the id-collection step raise; modeled as `typeError`. -/
def add_account (fm : WriteFail) (provider : String) (account : Json)
    (fs : FS) : Except PyErr Bool × FS :=
  if provider = "twitter" ∨ provider = "youtube" then
    if account.isObj && account.hasKey "id" then
      let cache_path := provider_path provider
      let rd := read_cache_file fs cache_path account_default
      match rd.1.getD "accounts" (.arr []) with
      | .arr xs =>
          match idsOf xs with
          | .error e => (.error e, rd.2)
          | .ok existing_ids =>
              let aid := account.getD "id" .null
              if existing_ids.any (fun e => Json.beq aid e) then
                (.ok false, rd.2)
              else
                let data2 := rd.1.setField "accounts" (.arr (xs ++ [account]))
                let wr := write_cache_file fm rd.2 cache_path data2
                (.ok wr.1, wr.2)
      | _ => (.error .typeError, rd.2)
    else (.error .valueError, fs)
  else (.error .valueError, fs)

/-- `[account for account in accounts if account.get('id') != account_id]`:
drop every record whose id equals `account_id`, raising `AttributeError`
on a non-dict element. -/
def removeMatching (account_id : String) : List Json → Except PyErr (List Json)
  | [] => .ok []
  | a :: rest =>
      match a with
      | .obj fields =>
          (removeMatching account_id rest).map (fun r =>
            if Json.beq (getId fields) (.str account_id) then r else a :: r)
      | _ => .error .attributeError

/-- `remove_account(provider, account_id)`: filter out matching records;
`False` (without writing) when the count is unchanged, else write back. -/
def remove_account (fm : WriteFail) (provider : String) (account_id : String)
    (fs : FS) : Except PyErr Bool × FS :=
  if provider = "twitter" ∨ provider = "youtube" then
    let cache_path := provider_path provider
    let rd := read_cache_file fs cache_path account_default
    match rd.1.getD "accounts" (.arr []) with
    | .arr xs =>
        match removeMatching account_id xs with
        | .error e => (.error e, rd.2)
        | .ok filtered =>
            if filtered.length = xs.length then (.ok false, rd.2)
            else
              let data2 := rd.1.setField "accounts" (.arr filtered)
              let wr := write_cache_file fm rd.2 cache_path data2
              (.ok wr.1, wr.2)
    | _ => (.error .typeError, rd.2)
  else (.error .valueError, fs)

/-- The `for account in accounts: if account.get('id') == account_id:
account.update(updates); break` loop: merge the patch into the first
matching record, leaving the rest untouched; `AttributeError` on a
non-dict element reached before a match. -/
def updateFirst (account_id : String) (updates : List (String × Json)) :
    List Json → Except PyErr (Bool × List Json)
  | [] => .ok (false, [])
  | a :: rest =>
      match a with
      | .obj fields =>
          if Json.beq (getId fields) (.str account_id) then
            .ok (true, .obj (dictUpdate fields updates) :: rest)
          else
            (updateFirst account_id updates rest).map (fun fr => (fr.1, a :: fr.2))
      | _ => .error .attributeError

/-- `update_account(provider, account_id, updates)`: merge the patch
into the first matching record; `False` (without writing) when no record
matches, else write back. -/
def update_account (fm : WriteFail) (provider : String) (account_id : String)
    (updates : List (String × Json)) (fs : FS) : Except PyErr Bool × FS :=
  if provider = "twitter" ∨ provider = "youtube" then
    let cache_path := provider_path provider
    let rd := read_cache_file fs cache_path account_default
    match rd.1.getD "accounts" (.arr []) with
    | .arr xs =>
        match updateFirst account_id updates xs with
        | .error e => (.error e, rd.2)
        | .ok fr =>
            if fr.1 then
              let data2 := rd.1.setField "accounts" (.arr fr.2)
              let wr := write_cache_file fm rd.2 cache_path data2
              (.ok wr.1, wr.2)
            else (.ok false, rd.2)
    | _ => (.error .typeError, rd.2)
  else (.error .valueError, fs)

/-- `get_products()`: read the afm document and return its `products`
field. No provider validation; never raises. -/
def get_products (fs : FS) : Json × FS :=
  let rd := read_cache_file fs get_afm_cache_path product_default
  (rd.1.getD "products" (.arr []), rd.2)

/-- `add_product(product)`: validate the `id` field, reject a duplicate
id, else append and write back. -/
def add_product (fm : WriteFail) (product : Json) (fs : FS) :
    Except PyErr Bool × FS :=
  if product.isObj && product.hasKey "id" then
    let rd := read_cache_file fs get_afm_cache_path product_default
    match rd.1.getD "products" (.arr []) with
    | .arr xs =>
        match idsOf xs with
        | .error e => (.error e, rd.2)
        | .ok existing_ids =>
            let pid := product.getD "id" .null
            if existing_ids.any (fun e => Json.beq pid e) then
              (.ok false, rd.2)
            else
              let data2 := rd.1.setField "products" (.arr (xs ++ [product]))
              let wr := write_cache_file fm rd.2 get_afm_cache_path data2
              (.ok wr.1, wr.2)
    | _ => (.error .typeError, rd.2)
  else (.error .valueError, fs)

/-- `if os.path.exists(cache_path): os.remove(cache_path)`. -/
def removeIfExists (fs : FS) (p : String) : FS :=
  if (fs p).isSome then fs.set p none else fs

/-- `clear_cache(provider=None)`: delete the matching cache files;
a provider that matches no recognized name deletes nothing and still
returns `True`. -/
def clear_cache (provider : Option String) (fs : FS) : Bool × FS :=
  let fs1 := if provider = some "twitter" ∨ provider = none then
               removeIfExists fs get_twitter_cache_path else fs
  let fs2 := if provider = some "youtube" ∨ provider = none then
               removeIfExists fs1 get_youtube_cache_path else fs1
  let fs3 := if provider = some "afm" ∨ provider = none then
               removeIfExists fs2 get_afm_cache_path else fs2
  (true, fs3)

/-- The account list a caller observes for a provider:
the `accounts` field of the document as `get_accounts` reads it. -/
def accountsView (provider : String) (fs : FS) : Json :=
  (read_cache_file fs (provider_path provider) account_default).1.getD
    "accounts" (.arr [])

/-- The product list a caller observes. -/
def productsView (fs : FS) : Json :=
  (read_cache_file fs get_afm_cache_path product_default).1.getD
    "products" (.arr [])

/-- A collection in the state the data model describes: a list of
record objects. -/
def wellformedArr (j : Json) : Bool :=
  match j with
  | .arr xs => xs.all Json.isObj
  | _ => false

/-- `id`-distinctness of a list of JSON ids under Python equality. -/
def nodupBeq : List Json → Bool
  | [] => true
  | i :: rest => rest.all (fun j => !(Json.beq j i)) && nodupBeq rest

/-- Pairwise-distinct record ids within a collection. -/
def uniqueIds (xs : List Json) : Bool := nodupBeq (xs.map recId)

/-! ### Helper lemmas -/

theorem path_ne_tmp (s : String) : s ≠ s ++ ".tmp" := by
  intro h
  have h2 := congrArg String.length h
  simp [String.length_append] at h2
  exact absurd h2 (by decide)

theorem tmp_ne_path (s : String) : s ++ ".tmp" ≠ s :=
  fun h => path_ne_tmp s h.symm

theorem Json.isObj_iff (j : Json) : j.isObj = true ↔ ∃ fields, j = .obj fields := by
  cases j <;> simp [Json.isObj]

theorem write_frame (fm : WriteFail) (fs : FS) (p : String) (d : Json)
    (q : String) (h1 : q ≠ p) (h2 : q ≠ p ++ ".tmp") :
    (write_cache_file fm fs p d).2 q = fs q := by
  cases fm <;> simp only [write_cache_file] <;> (try split) <;>
    simp [FS.set, h1, h2]

theorem write_ok_at_path (fs : FS) (p : String) (d : Json) :
    (write_cache_file .ok fs p d).2 p = some (.json d) := by
  simp only [write_cache_file]
  rw [FS.set_other _ _ _ _ (path_ne_tmp p), FS.set_same]

theorem ensure_frame (fs : FS) (p d : _) (q : String) (h : q ≠ p) :
    ensure_cache_file_exists fs p d q = fs q := by
  unfold ensure_cache_file_exists
  split
  · rfl
  · exact FS.set_other _ _ _ _ h

theorem read_frame (fs : FS) (p : String) (d : Json) (q : String) (h : q ≠ p) :
    (read_cache_file fs p d).2 q = fs q := by
  have he := ensure_frame fs p d q h
  simp only [read_cache_file]
  rcases hc : ensure_cache_file_exists fs p d p with _ | c
  · simpa [hc] using he
  · cases c <;> simpa [hc] using he

theorem ensure_of_exists (fs : FS) (p : String) (d : Json)
    (h : (fs p).isSome) : ensure_cache_file_exists fs p d = fs := by
  unfold ensure_cache_file_exists
  rw [if_pos h]

theorem read_snd_of_exists (fs : FS) (p : String) (d : Json)
    (h : (fs p).isSome) : (read_cache_file fs p d).2 = fs := by
  simp only [read_cache_file, ensure_of_exists fs p d h]
  rcases hc : fs p with _ | c
  · simp [hc] at h
  · cases c <;> simp [hc]

theorem ensure_of_absent (fs : FS) (p : String) (d : Json)
    (h : fs p = none) :
    ensure_cache_file_exists fs p d = fs.set p (some (.json d)) := by
  unfold ensure_cache_file_exists
  rw [if_neg (by simp [h])]

theorem read_fst_absent (fs : FS) (p : String) (d : Json) (h : fs p = none) :
    (read_cache_file fs p d).1 = d := by
  simp only [read_cache_file, ensure_of_absent fs p d h, FS.set_same]
  split <;> rfl

theorem read_fst_raw (fs : FS) (p : String) (d : Json) (s : String)
    (h : fs p = some (.raw s)) :
    (read_cache_file fs p d).1 = d := by
  simp only [read_cache_file, ensure_of_exists fs p d (by simp [h])]
  simp [h]

theorem read_fst_nonobj (fs : FS) (p : String) (d j : Json)
    (h : fs p = some (.json j)) (hj : j.isObj = false) :
    (read_cache_file fs p d).1 = d := by
  simp only [read_cache_file, ensure_of_exists fs p d (by simp [h])]
  simp [h, hj]

theorem read_fst_obj (fs : FS) (p : String) (d : Json)
    (fields : List (String × Json)) (h : fs p = some (.json (.obj fields))) :
    (read_cache_file fs p d).1 = .obj fields := by
  simp only [read_cache_file, ensure_of_exists fs p d (by simp [h])]
  simp [h, Json.isObj]

theorem read_fst_isObj (fs : FS) (p : String) (d : Json) (hd : d.isObj = true) :
    ((read_cache_file fs p d).1).isObj = true := by
  rcases hc : fs p with _ | c
  · rw [read_fst_absent fs p d hc]; exact hd
  · cases c with
    | raw s => rw [read_fst_raw fs p d s hc]; exact hd
    | json j =>
        by_cases hj : j.isObj = true
        · rcases (Json.isObj_iff j).mp hj with ⟨fields, rfl⟩
          rw [read_fst_obj fs p d fields hc]
          rfl
        · rw [read_fst_nonobj fs p d j hc (by simpa using hj)]
          exact hd

theorem lookupKey_setKey_same (fields : List (String × Json)) (k : String)
    (v : Json) : lookupKey (setKey fields k v) k = some v := by
  induction fields with
  | nil => simp [setKey, lookupKey]
  | cons kv rest ih =>
      obtain ⟨k', v'⟩ := kv
      by_cases h : k' = k
      · simp [setKey, h, lookupKey]
      · simp [setKey, h, lookupKey, ih]

theorem lookupKey_setKey_other (fields : List (String × Json)) (k k' : String)
    (v : Json) (h : k' ≠ k) :
    lookupKey (setKey fields k v) k' = lookupKey fields k' := by
  have h' : ¬(k = k') := fun hh => h hh.symm
  induction fields with
  | nil => simp [setKey, lookupKey, h']
  | cons kv rest ih =>
      obtain ⟨k0, v0⟩ := kv
      by_cases h0 : k0 = k
      · subst h0
        simp [setKey, lookupKey, h, h']
      · simp only [setKey, if_neg h0, lookupKey]
        split <;> simp_all

theorem lookupKey_dictUpdate_notin (fields patch : List (String × Json))
    (k : String) (h : ∀ kv ∈ patch, kv.1 ≠ k) :
    lookupKey (dictUpdate fields patch) k = lookupKey fields k := by
  induction patch generalizing fields with
  | nil => rfl
  | cons kv rest ih =>
      obtain ⟨k0, v0⟩ := kv
      have hk0 : k0 ≠ k := h (k0, v0) (by simp)
      simp only [dictUpdate, List.foldl_cons]
      rw [show (List.foldl (fun acc kv => setKey acc kv.1 kv.2) (setKey fields k0 v0) rest)
            = dictUpdate (setKey fields k0 v0) rest from rfl]
      rw [ih (setKey fields k0 v0) (fun kv hkv => h kv (by simp [hkv]))]
      exact lookupKey_setKey_other fields k0 k v0 (Ne.symm hk0)

theorem lookupKey_dictUpdate_mem (fields patch : List (String × Json))
    (k : String) (v : Json) (hnd : (patch.map Prod.fst).Nodup)
    (hm : (k, v) ∈ patch) :
    lookupKey (dictUpdate fields patch) k = some v := by
  induction patch generalizing fields with
  | nil => cases hm
  | cons kv rest ih =>
      obtain ⟨k0, v0⟩ := kv
      simp only [List.map_cons, List.nodup_cons] at hnd
      rcases List.mem_cons.mp hm with heq | hrest
      · cases heq
        simp only [dictUpdate, List.foldl_cons]
        rw [show (List.foldl (fun acc kv => setKey acc kv.1 kv.2) (setKey fields k v) rest)
              = dictUpdate (setKey fields k v) rest from rfl]
        rw [lookupKey_dictUpdate_notin (setKey fields k v) rest k
              (fun kv hkv h1 => hnd.1 (h1 ▸ List.mem_map_of_mem Prod.fst hkv))]
        exact lookupKey_setKey_same fields k v
      · simp only [dictUpdate, List.foldl_cons]
        exact ih (setKey fields k0 v0) hnd.2 hrest

theorem idsOf_eq_map (xs : List Json) (h : ∀ a ∈ xs, a.isObj = true) :
    idsOf xs = .ok (xs.map recId) := by
  induction xs with
  | nil => rfl
  | cons a rest ih =>
      have ha := h a (by simp)
      rcases (Json.isObj_iff a).mp ha with ⟨fields, rfl⟩
      simp [idsOf, ih (fun b hb => h b (by simp [hb])), recId, Except.map]

theorem idsOf_ok_elim (xs : List Json) (ids : List Json)
    (h : idsOf xs = .ok ids) :
    (∀ a ∈ xs, a.isObj = true) ∧ ids = xs.map recId := by
  induction xs generalizing ids with
  | nil =>
      simp only [idsOf] at h
      cases h
      simp
  | cons a rest ih =>
      cases a <;> simp only [idsOf] at h
      case obj fields =>
        rcases hr : idsOf rest with e | ids'
        · rw [hr] at h; simp [Except.map] at h
        · rw [hr] at h
          simp only [Except.map] at h
          cases h
          rcases ih ids' hr with ⟨hwf, hmap⟩
          refine ⟨?_, by simp [recId, hmap]⟩
          intro b hb
          rcases List.mem_cons.mp hb with rfl | hb'
          · rfl
          · exact hwf b hb'
      all_goals exact Except.noConfusion h

theorem removeMatching_eq_filter (i : String) (xs : List Json)
    (h : ∀ a ∈ xs, a.isObj = true) :
    removeMatching i xs =
      .ok (xs.filter (fun a => !(Json.beq (recId a) (.str i)))) := by
  induction xs with
  | nil => rfl
  | cons a rest ih =>
      rcases (Json.isObj_iff a).mp (h a (by simp)) with ⟨fields, rfl⟩
      simp only [removeMatching, ih (fun b hb => h b (by simp [hb])),
        Except.map, List.filter_cons, recId]
      by_cases hb : Json.beq (getId fields) (.str i) = true
      · simp [hb]
      · simp [Bool.eq_false_iff.mpr hb]

theorem removeMatching_ok_wf (i : String) (xs : List Json) (r : List Json)
    (h : removeMatching i xs = .ok r) : ∀ a ∈ xs, a.isObj = true := by
  induction xs generalizing r with
  | nil => simp
  | cons a rest ih =>
      cases a <;> simp only [removeMatching] at h
      case obj fields =>
        rcases hr : removeMatching i rest with e | r'
        · rw [hr] at h; simp [Except.map] at h
        · intro b hb
          rcases List.mem_cons.mp hb with rfl | hb'
          · rfl
          · exact ih r' hr b hb'
      all_goals exact Except.noConfusion h

theorem updateFirst_ok_false (i : String) (u : List (String × Json))
    (xs r : List Json) (h : updateFirst i u xs = .ok (false, r)) :
    r = xs ∧ ∀ a ∈ xs, a.isObj = true ∧ Json.beq (recId a) (.str i) = false := by
  induction xs generalizing r with
  | nil =>
      simp only [updateFirst] at h
      cases h
      simp
  | cons a rest ih =>
      cases a <;> simp only [updateFirst] at h
      case obj fields =>
        by_cases hb : Json.beq (getId fields) (.str i) = true
        · rw [if_pos hb] at h
          cases h
        · rw [if_neg hb] at h
          rcases hr : updateFirst i u rest with e | fr
          · rw [hr] at h; simp [Except.map] at h
          · rw [hr] at h
            simp only [Except.map] at h
            obtain ⟨f', r'⟩ := fr
            cases h
            rcases ih r' (by rw [hr]) with ⟨hreq, hall⟩
            subst hreq
            refine ⟨rfl, ?_⟩
            intro b hb'
            rcases List.mem_cons.mp hb' with rfl | hb''
            · exact ⟨rfl, by simpa [recId] using Bool.eq_false_iff.mpr hb⟩
            · exact hall b hb''
      all_goals exact Except.noConfusion h

theorem updateFirst_ok_true (i : String) (u : List (String × Json))
    (xs r : List Json) (h : updateFirst i u xs = .ok (true, r)) :
    ∃ pre fields post,
      xs = pre ++ .obj fields :: post ∧
      r = pre ++ .obj (dictUpdate fields u) :: post ∧
      (∀ a ∈ pre, a.isObj = true ∧ Json.beq (recId a) (.str i) = false) ∧
      Json.beq (getId fields) (.str i) = true := by
  induction xs generalizing r with
  | nil => simp only [updateFirst] at h; cases h
  | cons a rest ih =>
      cases a <;> simp only [updateFirst] at h
      case obj fields =>
        by_cases hb : Json.beq (getId fields) (.str i) = true
        · rw [if_pos hb] at h
          cases h
          exact ⟨[], fields, rest, by simp, by simp, by simp, hb⟩
        · rw [if_neg hb] at h
          rcases hr : updateFirst i u rest with e | fr
          · rw [hr] at h; simp [Except.map] at h
          · rw [hr] at h
            simp only [Except.map] at h
            obtain ⟨f', r'⟩ := fr
            cases h
            rcases ih r' (by rw [hr]) with ⟨pre, fields', post, hx, hrr, hpre, hm⟩
            refine ⟨.obj fields :: pre, fields', post, by simp [hx], by simp [hrr], ?_, hm⟩
            intro b hb'
            rcases List.mem_cons.mp hb' with rfl | hb''
            · exact ⟨rfl, by simpa [recId] using Bool.eq_false_iff.mpr hb⟩
            · exact hpre b hb''
      all_goals exact Except.noConfusion h

theorem updateFirst_isOk (i : String) (u : List (String × Json))
    (xs : List Json) (h : ∀ a ∈ xs, a.isObj = true) :
    ∃ fr, updateFirst i u xs = .ok fr := by
  induction xs with
  | nil => exact ⟨(false, []), rfl⟩
  | cons a rest ih =>
      rcases (Json.isObj_iff a).mp (h a (by simp)) with ⟨fields, rfl⟩
      rcases ih (fun b hb => h b (by simp [hb])) with ⟨fr, hfr⟩
      by_cases hb : Json.beq (getId fields) (.str i) = true
      · exact ⟨(true, .obj (dictUpdate fields u) :: rest), by simp [updateFirst, hb]⟩
      · exact ⟨(fr.1, .obj fields :: fr.2), by simp [updateFirst, hb, hfr, Except.map]⟩

theorem nodupBeq_append_singleton (l : List Json) (x : Json) :
    nodupBeq (l ++ [x]) = true ↔
      ((∀ i ∈ l, Json.beq x i = false) ∧ nodupBeq l = true) := by
  induction l with
  | nil => simp [nodupBeq]
  | cons i rest ih =>
      constructor
      · intro h
        simp only [List.cons_append, nodupBeq, Bool.and_eq_true,
          List.all_eq_true, Bool.not_eq_true'] at h
        obtain ⟨h1, h2⟩ := h
        obtain ⟨h3, h4⟩ := ih.mp h2
        constructor
        · intro b hb
          rcases List.mem_cons.mp hb with rfl | hb'
          · exact h1 x (by simp)
          · exact h3 b hb'
        · simp only [nodupBeq, Bool.and_eq_true, List.all_eq_true,
            Bool.not_eq_true']
          exact ⟨fun j hj => h1 j (by simp [hj]), h4⟩
      · rintro ⟨h1, h2⟩
        simp only [nodupBeq, Bool.and_eq_true, List.all_eq_true,
          Bool.not_eq_true'] at h2
        obtain ⟨h3, h4⟩ := h2
        simp only [List.cons_append, nodupBeq, Bool.and_eq_true,
          List.all_eq_true, Bool.not_eq_true']
        refine ⟨?_, ih.mpr ⟨fun b hb => h1 b (by simp [hb]), h4⟩⟩
        intro j hj
        rcases List.mem_append.mp hj with hj' | hj'
        · exact h3 j hj'
        · rw [List.mem_singleton.mp hj']
          exact h1 i (by simp)

theorem nodupBeq_sublist (l' l : List Json) (h : List.Sublist l' l)
    (hn : nodupBeq l = true) : nodupBeq l' = true := by
  induction h with
  | slnil => rfl
  | cons a h ih =>
      simp only [nodupBeq, Bool.and_eq_true] at hn
      exact ih hn.2
  | cons₂ a h ih =>
      simp only [nodupBeq, Bool.and_eq_true, List.all_eq_true] at hn ⊢
      exact ⟨fun j hj => hn.1 j (h.subset hj), ih hn.2⟩

theorem uniqueIds_append_singleton (xs : List Json) (a : Json) :
    uniqueIds (xs ++ [a]) = true ↔
      ((∀ b ∈ xs, Json.beq (recId a) (recId b) = false) ∧
        uniqueIds xs = true) := by
  unfold uniqueIds
  rw [List.map_append, List.map_singleton, nodupBeq_append_singleton]
  constructor
  · rintro ⟨h1, h2⟩
    exact ⟨fun b hb => h1 (recId b) (List.mem_map_of_mem recId hb), h2⟩
  · rintro ⟨h1, h2⟩
    refine ⟨?_, h2⟩
    intro i hi
    rcases List.mem_map.mp hi with ⟨b, hb, rfl⟩
    exact h1 b hb

theorem uniqueIds_of_map_eq (xs ys : List Json)
    (h : ys.map recId = xs.map recId) (hu : uniqueIds xs = true) :
    uniqueIds ys = true := by
  unfold uniqueIds at hu ⊢
  rw [h]
  exact hu

theorem uniqueIds_sublist (xs ys : List Json) (h : List.Sublist ys xs)
    (hu : uniqueIds xs = true) : uniqueIds ys = true :=
  nodupBeq_sublist _ _ (h.map recId) hu

theorem accountsView_absent (provider : String) (fs : FS)
    (h : fs (provider_path provider) = none) :
    accountsView provider fs = .arr [] := by
  unfold accountsView
  rw [read_fst_absent _ _ _ h]
  rfl

theorem accountsView_obj (provider : String) (fs : FS)
    (fields : List (String × Json))
    (h : fs (provider_path provider) = some (.json (.obj fields))) :
    accountsView provider fs = (lookupKey fields "accounts").getD (.arr []) := by
  unfold accountsView
  rw [read_fst_obj _ _ _ fields h]
  rfl

theorem accountsView_read_snd (provider : String) (fs : FS) :
    accountsView provider
      (read_cache_file fs (provider_path provider) account_default).2 =
      accountsView provider fs := by
  rcases hc : fs (provider_path provider) with _ | c
  · have hens := ensure_of_absent fs (provider_path provider) account_default hc
    have h2 : (read_cache_file fs (provider_path provider) account_default).2 =
        fs.set (provider_path provider) (some (.json account_default)) := by
      simp only [read_cache_file, hens, FS.set_same]
    rw [h2, accountsView_obj _ _ [("accounts", .arr [])] (by simp [FS.set_same, account_default]),
      accountsView_absent _ _ hc]
    rfl
  · rw [read_snd_of_exists _ _ _ (by simp [hc])]

theorem accountsView_write_ok (provider : String) (fs : FS) (data v : Json)
    (hobj : data.isObj = true) :
    accountsView provider
      (write_cache_file .ok fs (provider_path provider)
        (data.setField "accounts" v)).2 = v := by
  rcases (Json.isObj_iff data).mp hobj with ⟨fields, rfl⟩
  rw [accountsView_obj provider _ (setKey fields "accounts" v)
    (by simpa [Json.setField] using
      write_ok_at_path fs (provider_path provider) (Json.setField (.obj fields) "accounts" v))]
  rw [lookupKey_setKey_same]
  rfl

theorem get_accounts_fst (provider : String) (fs : FS)
    (hp : provider = "twitter" ∨ provider = "youtube") :
    (get_accounts provider fs).1 = .ok (accountsView provider fs) := by
  unfold get_accounts
  rw [if_pos hp]
  rfl

theorem add_account_dup (fm : WriteFail) (provider : String) (account : Json)
    (fs : FS) (xs : List Json)
    (hp : provider = "twitter" ∨ provider = "youtube")
    (hobj : account.isObj = true) (hid : account.hasKey "id" = true)
    (hv : accountsView provider fs = .arr xs)
    (hwf : ∀ a ∈ xs, a.isObj = true)
    (hdup : ∃ a ∈ xs, Json.beq (account.getD "id" .null) (recId a) = true) :
    add_account fm provider account fs =
      (.ok false,
        (read_cache_file fs (provider_path provider) account_default).2) := by
  unfold add_account
  rw [if_pos hp, if_pos (by simp [hobj, hid])]
  dsimp only
  rw [show (read_cache_file fs (provider_path provider) account_default).1.getD
        "accounts" (.arr []) = .arr xs from hv]
  dsimp only
  rw [idsOf_eq_map xs hwf]
  have hany : (xs.map recId).any
      (fun e => Json.beq (account.getD "id" .null) e) = true := by
    rcases hdup with ⟨a, ha, hb⟩
    exact List.any_eq_true.mpr ⟨recId a, List.mem_map_of_mem recId ha, hb⟩
  simp [hany]

theorem add_account_fresh (fm : WriteFail) (provider : String) (account : Json)
    (fs : FS) (xs : List Json)
    (hp : provider = "twitter" ∨ provider = "youtube")
    (hobj : account.isObj = true) (hid : account.hasKey "id" = true)
    (hv : accountsView provider fs = .arr xs)
    (hwf : ∀ a ∈ xs, a.isObj = true)
    (hfresh : ∀ a ∈ xs, Json.beq (account.getD "id" .null) (recId a) = false) :
    add_account fm provider account fs =
      (.ok (write_cache_file fm
          (read_cache_file fs (provider_path provider) account_default).2
          (provider_path provider)
          ((read_cache_file fs (provider_path provider) account_default).1.setField
            "accounts" (.arr (xs ++ [account])))).1,
        (write_cache_file fm
          (read_cache_file fs (provider_path provider) account_default).2
          (provider_path provider)
          ((read_cache_file fs (provider_path provider) account_default).1.setField
            "accounts" (.arr (xs ++ [account])))).2) := by
  unfold add_account
  rw [if_pos hp, if_pos (by simp [hobj, hid])]
  dsimp only
  rw [show (read_cache_file fs (provider_path provider) account_default).1.getD
        "accounts" (.arr []) = .arr xs from hv]
  dsimp only
  rw [idsOf_eq_map xs hwf]
  have hany : (xs.map recId).any
      (fun e => Json.beq (account.getD "id" .null) e) = false := by
    rw [List.any_eq_false]
    intro e he
    rcases List.mem_map.mp he with ⟨a, ha, rfl⟩
    simp [hfresh a ha]
  simp [hany]

theorem filter_length_ne (xs : List Json) (p : Json → Bool)
    (hmatch : ∃ a ∈ xs, p a = false) : (xs.filter p).length ≠ xs.length := by
  intro hlen
  have hfe := (List.filter_sublist xs).eq_of_length hlen
  rcases hmatch with ⟨a, ha, hpa⟩
  have hm : a ∈ xs.filter p := by rw [hfe]; exact ha
  rw [List.mem_filter] at hm
  rw [hm.2] at hpa
  cases hpa

theorem remove_account_nomatch (fm : WriteFail) (provider account_id : String)
    (fs : FS) (xs : List Json)
    (hp : provider = "twitter" ∨ provider = "youtube")
    (hv : accountsView provider fs = .arr xs)
    (hwf : ∀ a ∈ xs, a.isObj = true)
    (hnm : ∀ a ∈ xs, Json.beq (recId a) (.str account_id) = false) :
    remove_account fm provider account_id fs =
      (.ok false,
        (read_cache_file fs (provider_path provider) account_default).2) := by
  unfold remove_account
  rw [if_pos hp]
  dsimp only
  rw [show (read_cache_file fs (provider_path provider) account_default).1.getD
        "accounts" (.arr []) = .arr xs from hv]
  dsimp only
  rw [removeMatching_eq_filter account_id xs hwf]
  have hself : xs.filter (fun a => !(Json.beq (recId a) (.str account_id))) = xs :=
    List.filter_eq_self.mpr (fun a ha => by simp [hnm a ha])
  simp [hself]

theorem remove_account_match (fm : WriteFail) (provider account_id : String)
    (fs : FS) (xs : List Json)
    (hp : provider = "twitter" ∨ provider = "youtube")
    (hv : accountsView provider fs = .arr xs)
    (hwf : ∀ a ∈ xs, a.isObj = true)
    (hm : ∃ a ∈ xs, Json.beq (recId a) (.str account_id) = true) :
    remove_account fm provider account_id fs =
      (.ok (write_cache_file fm
          (read_cache_file fs (provider_path provider) account_default).2
          (provider_path provider)
          ((read_cache_file fs (provider_path provider) account_default).1.setField
            "accounts"
            (.arr (xs.filter (fun a => !(Json.beq (recId a) (.str account_id))))))).1,
        (write_cache_file fm
          (read_cache_file fs (provider_path provider) account_default).2
          (provider_path provider)
          ((read_cache_file fs (provider_path provider) account_default).1.setField
            "accounts"
            (.arr (xs.filter (fun a => !(Json.beq (recId a) (.str account_id))))))).2) := by
  unfold remove_account
  rw [if_pos hp]
  dsimp only
  rw [show (read_cache_file fs (provider_path provider) account_default).1.getD
        "accounts" (.arr []) = .arr xs from hv]
  dsimp only
  rw [removeMatching_eq_filter account_id xs hwf]
  have hne : (xs.filter (fun a => !(Json.beq (recId a) (.str account_id)))).length ≠
      xs.length := by
    apply filter_length_ne
    rcases hm with ⟨a, ha, hba⟩
    exact ⟨a, ha, by simp [hba]⟩
  simp [hne]

theorem updateFirst_nomatch (i : String) (u : List (String × Json))
    (xs : List Json) (hwf : ∀ a ∈ xs, a.isObj = true)
    (hnm : ∀ a ∈ xs, Json.beq (recId a) (.str i) = false) :
    updateFirst i u xs = .ok (false, xs) := by
  induction xs with
  | nil => rfl
  | cons a rest ih =>
      rcases (Json.isObj_iff a).mp (hwf a (by simp)) with ⟨fields, rfl⟩
      have hna : Json.beq (getId fields) (.str i) = false := by
        simpa [recId] using hnm (.obj fields) (by simp)
      simp [updateFirst, hna,
        ih (fun b hb => hwf b (by simp [hb])) (fun b hb => hnm b (by simp [hb])),
        Except.map]

theorem update_account_nomatch (fm : WriteFail) (provider account_id : String)
    (updates : List (String × Json)) (fs : FS) (xs : List Json)
    (hp : provider = "twitter" ∨ provider = "youtube")
    (hv : accountsView provider fs = .arr xs)
    (hwf : ∀ a ∈ xs, a.isObj = true)
    (hnm : ∀ a ∈ xs, Json.beq (recId a) (.str account_id) = false) :
    update_account fm provider account_id updates fs =
      (.ok false,
        (read_cache_file fs (provider_path provider) account_default).2) := by
  unfold update_account
  rw [if_pos hp]
  dsimp only
  rw [show (read_cache_file fs (provider_path provider) account_default).1.getD
        "accounts" (.arr []) = .arr xs from hv]
  dsimp only
  rw [updateFirst_nomatch account_id updates xs hwf hnm]
  rfl

theorem update_account_found (fm : WriteFail) (provider account_id : String)
    (updates : List (String × Json)) (fs : FS) (xs r : List Json)
    (hp : provider = "twitter" ∨ provider = "youtube")
    (hv : accountsView provider fs = .arr xs)
    (huf : updateFirst account_id updates xs = .ok (true, r)) :
    update_account fm provider account_id updates fs =
      (.ok (write_cache_file fm
          (read_cache_file fs (provider_path provider) account_default).2
          (provider_path provider)
          ((read_cache_file fs (provider_path provider) account_default).1.setField
            "accounts" (.arr r))).1,
        (write_cache_file fm
          (read_cache_file fs (provider_path provider) account_default).2
          (provider_path provider)
          ((read_cache_file fs (provider_path provider) account_default).1.setField
            "accounts" (.arr r))).2) := by
  unfold update_account
  rw [if_pos hp]
  dsimp only
  rw [show (read_cache_file fs (provider_path provider) account_default).1.getD
        "accounts" (.arr []) = .arr xs from hv]
  dsimp only
  rw [huf]
  rfl

theorem get_accounts_frame (provider : String) (fs : FS) (q : String)
    (h1 : q ≠ provider_path provider) :
    (get_accounts provider fs).2 q = fs q := by
  unfold get_accounts
  split
  · exact read_frame _ _ _ _ h1
  · rfl

theorem add_account_frame (fm : WriteFail) (provider : String) (account : Json)
    (fs : FS) (q : String) (h1 : q ≠ provider_path provider)
    (h2 : q ≠ provider_path provider ++ ".tmp") :
    (add_account fm provider account fs).2 q = fs q := by
  unfold add_account
  split
  · split
    · dsimp only
      split
      · split
        · exact read_frame _ _ _ _ h1
        · split
          · exact read_frame _ _ _ _ h1
          · dsimp only
            rw [write_frame _ _ _ _ _ h1 h2]
            exact read_frame _ _ _ _ h1
      · exact read_frame _ _ _ _ h1
    · rfl
  · rfl

theorem remove_account_frame (fm : WriteFail) (provider account_id : String)
    (fs : FS) (q : String) (h1 : q ≠ provider_path provider)
    (h2 : q ≠ provider_path provider ++ ".tmp") :
    (remove_account fm provider account_id fs).2 q = fs q := by
  unfold remove_account
  split
  · dsimp only
    split
    · split
      · exact read_frame _ _ _ _ h1
      · split
        · exact read_frame _ _ _ _ h1
        · dsimp only
          rw [write_frame _ _ _ _ _ h1 h2]
          exact read_frame _ _ _ _ h1
    · exact read_frame _ _ _ _ h1
  · rfl

theorem update_account_frame (fm : WriteFail) (provider account_id : String)
    (updates : List (String × Json)) (fs : FS) (q : String)
    (h1 : q ≠ provider_path provider)
    (h2 : q ≠ provider_path provider ++ ".tmp") :
    (update_account fm provider account_id updates fs).2 q = fs q := by
  unfold update_account
  split
  · dsimp only
    split
    · split
      · exact read_frame _ _ _ _ h1
      · split
        · dsimp only
          rw [write_frame _ _ _ _ _ h1 h2]
          exact read_frame _ _ _ _ h1
        · exact read_frame _ _ _ _ h1
    · exact read_frame _ _ _ _ h1
  · rfl

theorem get_products_frame (fs : FS) (q : String)
    (h1 : q ≠ get_afm_cache_path) :
    (get_products fs).2 q = fs q :=
  read_frame _ _ _ _ h1

theorem add_product_frame (fm : WriteFail) (product : Json) (fs : FS)
    (q : String) (h1 : q ≠ get_afm_cache_path)
    (h2 : q ≠ get_afm_cache_path ++ ".tmp") :
    (add_product fm product fs).2 q = fs q := by
  unfold add_product
  split
  · dsimp only
    split
    · split
      · exact read_frame _ _ _ _ h1
      · split
        · exact read_frame _ _ _ _ h1
        · dsimp only
          rw [write_frame _ _ _ _ _ h1 h2]
          exact read_frame _ _ _ _ h1
    · exact read_frame _ _ _ _ h1
  · rfl

theorem removeIfExists_frame (fs : FS) (p q : String) (h : q ≠ p) :
    removeIfExists fs p q = fs q := by
  unfold removeIfExists
  split
  · exact FS.set_other _ _ _ _ h
  · rfl

theorem removeIfExists_at (fs : FS) (p : String) :
    removeIfExists fs p p = none := by
  unfold removeIfExists
  split
  · exact FS.set_same _ _ _
  · rename_i h
    exact Option.not_isSome_iff_eq_none.mp h

theorem recId_obj_getD (account : Json) (hobj : account.isObj = true) :
    recId account = account.getD "id" .null := by
  rcases (Json.isObj_iff account).mp hobj with ⟨f, rfl⟩
  rfl

theorem forall_mem_beq_false_of_all (xs : List Json) (i : String)
    (h : xs.all (fun a => !(Json.beq (recId a) (.str i))) = true) :
    ∀ a ∈ xs, Json.beq (recId a) (.str i) = false := by
  intro a ha
  simpa using List.all_eq_true.mp h a ha

/-! ### Claim theorems -/

/-- C1 (counterexample): the claim says a failure in any step of the
write phase leaves the previously valid on-disk document intact.
Concretely: a valid twitter document exists, `add_account` with a fresh
id hits a failure of the `os.rename` step; the operation reports failure
(`.ok false`), yet the original document has been deleted (the
remove-old-then-rename sequence removed it before the rename failed). -/
theorem C1_rename_failure_destroys_original :
    (add_account .rename "twitter" (.obj [("id", .str "b")])
        (FS.empty.set get_twitter_cache_path
          (some (.json (.obj [("accounts",
            .arr [.obj [("id", .str "a")]])]))))).1 = .ok false ∧
    (FS.empty.set get_twitter_cache_path
        (some (.json (.obj [("accounts", .arr [.obj [("id", .str "a")]])]))))
      get_twitter_cache_path
      = some (.json (.obj [("accounts", .arr [.obj [("id", .str "a")]])])) ∧
    (add_account .rename "twitter" (.obj [("id", .str "b")])
        (FS.empty.set get_twitter_cache_path
          (some (.json (.obj [("accounts",
            .arr [.obj [("id", .str "a")]])]))))).2
      get_twitter_cache_path = none :=
  ⟨rfl, rfl, rfl⟩

/-- C1 (amended): for every failure point of the write phase the
operation reports failure via its boolean result and the temporary file
is cleaned up; the original document survives a failure of the temp-file
write or of the old-document removal, but a failure of the rename step
leaves no document at all — the original was already removed. -/
theorem C1_write_failure_amended (fm : WriteFail) (fs : FS) (p : String)
    (d : Json) :
    ((write_cache_file fm fs p d).2 (p ++ ".tmp") = none) ∧
    (fm = .tempWrite →
      (write_cache_file fm fs p d).1 = false ∧
      (write_cache_file fm fs p d).2 p = fs p) ∧
    (fm = .removeOld → (fs p).isSome →
      (write_cache_file fm fs p d).1 = false ∧
      (write_cache_file fm fs p d).2 p = fs p) ∧
    (fm = .rename →
      (write_cache_file fm fs p d).1 = false ∧
      (write_cache_file fm fs p d).2 p = none) := by
  refine ⟨?_, ?_, ?_, ?_⟩
  · cases fm <;> simp only [write_cache_file] <;> (try split) <;>
      simp [FS.set_same]
  · rintro rfl
    exact ⟨rfl, FS.set_other _ _ _ _ (path_ne_tmp p)⟩
  · rintro rfl h
    have hs : ((fs.set (p ++ ".tmp") (some (.json d))) p).isSome := by
      rwa [FS.set_other _ _ _ _ (path_ne_tmp p)]
    simp only [write_cache_file]
    rw [if_pos hs]
    refine ⟨rfl, ?_⟩
    dsimp only
    rw [FS.set_other _ _ _ _ (path_ne_tmp p),
      FS.set_other _ _ _ _ (path_ne_tmp p)]
  · rintro rfl
    refine ⟨rfl, ?_⟩
    simp only [write_cache_file]
    rw [FS.set_other _ _ _ _ (path_ne_tmp p)]
    split
    · exact FS.set_same _ _ _
    · rename_i h
      rw [FS.set_other _ _ _ _ (path_ne_tmp p)] at h ⊢
      exact Option.not_isSome_iff_eq_none.mp h

/-- C1 (witness): the amended theorem applied at a concrete state with
an existing document and a rename-step failure. -/
theorem C1_write_failure_amended_witness :
    (write_cache_file .rename (FS.empty.set "f" (some (.json .null)))
        "f" .null).1 = false ∧
    (write_cache_file .rename (FS.empty.set "f" (some (.json .null)))
        "f" .null).2 "f" = none :=
  (C1_write_failure_amended .rename (FS.empty.set "f" (some (.json .null)))
    "f" .null).2.2.2 rfl

/-- C3 (counterexample): the claim says that when the expected array
field has the wrong type, `list` returns the empty sequence. In the
code, `data.get('accounts', [])` returns whatever value is stored under
the key: on a document `{"accounts": 5}` the call returns `5`, not the
empty list. -/
theorem C3_wrong_type_field_returned_as_is :
    (get_accounts "twitter"
        (FS.empty.set get_twitter_cache_path
          (some (.json (.obj [("accounts", .num 5)]))))).1 = .ok (.num 5) ∧
    Json.num 5 ≠ Json.arr [] :=
  ⟨rfl, fun h => Json.noConfusion h⟩

/-- C3 (amended): for a valid provider, `get_accounts` never raises; an
absent file, unparsable content, a non-object document, or a document
without the `accounts` key all yield the empty list; but when the
`accounts` key is present its value is returned as-is, whatever its
type. -/
theorem C3_list_never_fails_amended :
    (∀ provider fs, (provider = "twitter" ∨ provider = "youtube") →
      ∃ j, (get_accounts provider fs).1 = .ok j) ∧
    (∀ provider fs, (provider = "twitter" ∨ provider = "youtube") →
      fs (provider_path provider) = none →
      (get_accounts provider fs).1 = .ok (.arr [])) ∧
    (∀ provider fs s, (provider = "twitter" ∨ provider = "youtube") →
      fs (provider_path provider) = some (.raw s) →
      (get_accounts provider fs).1 = .ok (.arr [])) ∧
    (∀ provider fs j, (provider = "twitter" ∨ provider = "youtube") →
      fs (provider_path provider) = some (.json j) → j.isObj = false →
      (get_accounts provider fs).1 = .ok (.arr [])) ∧
    (∀ provider fs fields, (provider = "twitter" ∨ provider = "youtube") →
      fs (provider_path provider) = some (.json (.obj fields)) →
      lookupKey fields "accounts" = none →
      (get_accounts provider fs).1 = .ok (.arr [])) ∧
    (∀ provider fs fields v, (provider = "twitter" ∨ provider = "youtube") →
      fs (provider_path provider) = some (.json (.obj fields)) →
      lookupKey fields "accounts" = some v →
      (get_accounts provider fs).1 = .ok v) := by
  refine ⟨?_, ?_, ?_, ?_, ?_, ?_⟩
  · intro provider fs hp
    exact ⟨accountsView provider fs, get_accounts_fst provider fs hp⟩
  · intro provider fs hp h
    rw [get_accounts_fst provider fs hp, accountsView_absent provider fs h]
  · intro provider fs s hp h
    rw [get_accounts_fst provider fs hp]
    unfold accountsView
    rw [read_fst_raw _ _ _ s h]
    rfl
  · intro provider fs j hp h hj
    rw [get_accounts_fst provider fs hp]
    unfold accountsView
    rw [read_fst_nonobj _ _ _ j h hj]
    rfl
  · intro provider fs fields hp h hk
    rw [get_accounts_fst provider fs hp, accountsView_obj provider fs fields h,
      hk]
    rfl
  · intro provider fs fields v hp h hk
    rw [get_accounts_fst provider fs hp, accountsView_obj provider fs fields h,
      hk]
    rfl

/-- C3 (witness): the amended theorem applied at an absent file and at a
document whose `accounts` key holds a number. -/
theorem C3_list_never_fails_amended_witness :
    (get_accounts "twitter" FS.empty).1 = .ok (.arr []) ∧
    (get_accounts "youtube"
        (FS.empty.set get_youtube_cache_path
          (some (.json (.obj [("accounts", .num 5)]))))).1 = .ok (.num 5) :=
  ⟨C3_list_never_fails_amended.2.1 "twitter" FS.empty (Or.inl rfl) rfl,
   C3_list_never_fails_amended.2.2.2.2.2 "youtube" _ [("accounts", .num 5)]
     (.num 5) (Or.inr rfl) rfl rfl⟩

/-- C7 (counterexample): the claim says every store operation invoked
with an invalid collection name signals `ValidationError`, including
`clear`. But `clear_cache("pinterest")` matches none of the recognized
providers, deletes nothing, and returns `True` — no error at all. -/
theorem C7_clear_ignores_invalid_provider :
    clear_cache (some "pinterest") FS.empty = (true, FS.empty) := rfl

/-- C7 (amended): `list`, `insert`, `remove` and `update` raise
`ValueError` on an invalid provider and leave the filesystem unchanged,
but `clear` with an unrecognized provider silently returns success and
touches nothing. -/
theorem C7_invalid_collection_amended :
    (∀ provider fs, provider ≠ "twitter" → provider ≠ "youtube" →
      get_accounts provider fs = (.error .valueError, fs)) ∧
    (∀ fm provider account fs, provider ≠ "twitter" → provider ≠ "youtube" →
      add_account fm provider account fs = (.error .valueError, fs)) ∧
    (∀ fm provider account_id fs, provider ≠ "twitter" → provider ≠ "youtube" →
      remove_account fm provider account_id fs = (.error .valueError, fs)) ∧
    (∀ fm provider account_id updates fs,
      provider ≠ "twitter" → provider ≠ "youtube" →
      update_account fm provider account_id updates fs =
        (.error .valueError, fs)) ∧
    (∀ p fs, p ≠ "twitter" → p ≠ "youtube" → p ≠ "afm" →
      clear_cache (some p) fs = (true, fs)) := by
  refine ⟨?_, ?_, ?_, ?_, ?_⟩
  · intro provider fs h1 h2
    unfold get_accounts
    rw [if_neg (by simp [h1, h2])]
  · intro fm provider account fs h1 h2
    unfold add_account
    rw [if_neg (by simp [h1, h2])]
  · intro fm provider account_id fs h1 h2
    unfold remove_account
    rw [if_neg (by simp [h1, h2])]
  · intro fm provider account_id updates fs h1 h2
    unfold update_account
    rw [if_neg (by simp [h1, h2])]
  · intro p fs h1 h2 h3
    simp [clear_cache, h1, h2, h3]

/-- C7 (witness): the amended theorem applied at the provider name
`"reddit"` for each operation. -/
theorem C7_invalid_collection_amended_witness :
    get_accounts "reddit" FS.empty = (.error .valueError, FS.empty) ∧
    add_account .ok "reddit" .null FS.empty = (.error .valueError, FS.empty) ∧
    remove_account .ok "reddit" "x" FS.empty = (.error .valueError, FS.empty) ∧
    update_account .ok "reddit" "x" [] FS.empty =
      (.error .valueError, FS.empty) ∧
    clear_cache (some "reddit") FS.empty = (true, FS.empty) :=
  ⟨C7_invalid_collection_amended.1 "reddit" FS.empty (by decide) (by decide),
   C7_invalid_collection_amended.2.1 .ok "reddit" .null FS.empty
     (by decide) (by decide),
   C7_invalid_collection_amended.2.2.1 .ok "reddit" "x" FS.empty
     (by decide) (by decide),
   C7_invalid_collection_amended.2.2.2.1 .ok "reddit" "x" [] FS.empty
     (by decide) (by decide),
   C7_invalid_collection_amended.2.2.2.2 "reddit" FS.empty
     (by decide) (by decide) (by decide)⟩

/-- C9: when the backing document is present, a read leaves the
filesystem exactly as it was (the corrupt bytes are not overwritten),
and unparsable or non-object content is replaced by the default
structure in memory only. -/
theorem C9_corrupt_read_leaves_file_untouched (fs : FS) (p : String)
    (d : Json) (c : Content) (h : fs p = some c) :
    (read_cache_file fs p d).2 = fs ∧
    (∀ s, c = .raw s → (read_cache_file fs p d).1 = d) ∧
    (∀ j, c = .json j → j.isObj = false → (read_cache_file fs p d).1 = d) := by
  refine ⟨read_snd_of_exists fs p d (by simp [h]), ?_, ?_⟩
  · rintro s rfl
    exact read_fst_raw fs p d s h
  · rintro j rfl hj
    exact read_fst_nonobj fs p d j h hj

/-- C9 (witness): the theorem applied to a file holding unparsable
bytes. -/
theorem C9_corrupt_read_leaves_file_untouched_witness :
    (read_cache_file (FS.empty.set "f" (some (.raw "not json"))) "f"
        account_default).2 = FS.empty.set "f" (some (.raw "not json")) ∧
    (∀ s, Content.raw "not json" = .raw s →
      (read_cache_file (FS.empty.set "f" (some (.raw "not json"))) "f"
        account_default).1 = account_default) ∧
    (∀ j, Content.raw "not json" = .json j → j.isObj = false →
      (read_cache_file (FS.empty.set "f" (some (.raw "not json"))) "f"
        account_default).1 = account_default) :=
  C9_corrupt_read_leaves_file_untouched
    (FS.empty.set "f" (some (.raw "not json"))) "f" account_default
    (.raw "not json") rfl

/-- C4: on a well-formed collection, with the write phase succeeding,
`remove` returns not-found exactly when no record's id matches, leaving
the collection unchanged; on success every matching record is filtered
out, so the listed collection afterwards contains no record with the
removed id. -/
theorem C4_remove_filters_and_not_found (provider account_id : String)
    (fs : FS) (xs : List Json)
    (hp : provider = "twitter" ∨ provider = "youtube")
    (hv : accountsView provider fs = .arr xs)
    (hwf : ∀ a ∈ xs, a.isObj = true) :
    ((∀ a ∈ xs, Json.beq (recId a) (.str account_id) = false) →
      (remove_account .ok provider account_id fs).1 = .ok false ∧
      accountsView provider (remove_account .ok provider account_id fs).2 =
        .arr xs) ∧
    ((∃ a ∈ xs, Json.beq (recId a) (.str account_id) = true) →
      (remove_account .ok provider account_id fs).1 = .ok true ∧
      accountsView provider (remove_account .ok provider account_id fs).2 =
        .arr (xs.filter (fun a => !(Json.beq (recId a) (.str account_id)))) ∧
      ∀ a ∈ xs.filter (fun a => !(Json.beq (recId a) (.str account_id))),
        Json.beq (recId a) (.str account_id) = false) := by
  constructor
  · intro hnm
    rw [remove_account_nomatch .ok provider account_id fs xs hp hv hwf hnm]
    exact ⟨rfl, by rw [accountsView_read_snd provider fs, hv]⟩
  · intro hm
    rw [remove_account_match .ok provider account_id fs xs hp hv hwf hm]
    refine ⟨rfl, ?_, ?_⟩
    · exact accountsView_write_ok provider _ _ _
        (read_fst_isObj fs (provider_path provider) account_default rfl)
    · intro a ha
      rw [List.mem_filter] at ha
      simpa using ha.2

/-- C4 (witness): removing an existing id from a two-record collection
and removing an absent id from the same collection. -/
theorem C4_remove_filters_and_not_found_witness :
    ((remove_account .ok "twitter" "a"
        (FS.empty.set get_twitter_cache_path
          (some (.json (.obj [("accounts",
            .arr [.obj [("id", .str "a")], .obj [("id", .str "b")]])]))))).1 =
      .ok true ∧
      accountsView "twitter" (remove_account .ok "twitter" "a"
        (FS.empty.set get_twitter_cache_path
          (some (.json (.obj [("accounts",
            .arr [.obj [("id", .str "a")], .obj [("id", .str "b")]])]))))).2 =
        .arr ([.obj [("id", .str "a")], .obj [("id", .str "b")]].filter
          (fun a => !(Json.beq (recId a) (.str "a")))) ∧
      ∀ a ∈ [Json.obj [("id", .str "a")], .obj [("id", .str "b")]].filter
          (fun a => !(Json.beq (recId a) (.str "a"))),
        Json.beq (recId a) (.str "a") = false) ∧
    ((remove_account .ok "twitter" "zz"
        (FS.empty.set get_twitter_cache_path
          (some (.json (.obj [("accounts",
            .arr [.obj [("id", .str "a")], .obj [("id", .str "b")]])]))))).1 =
      .ok false ∧
      accountsView "twitter" (remove_account .ok "twitter" "zz"
        (FS.empty.set get_twitter_cache_path
          (some (.json (.obj [("accounts",
            .arr [.obj [("id", .str "a")], .obj [("id", .str "b")]])]))))).2 =
        .arr [.obj [("id", .str "a")], .obj [("id", .str "b")]]) :=
  ⟨(C4_remove_filters_and_not_found "twitter" "a"
      (FS.empty.set get_twitter_cache_path
        (some (.json (.obj [("accounts",
          .arr [.obj [("id", .str "a")], .obj [("id", .str "b")]])]))))
      [.obj [("id", .str "a")], .obj [("id", .str "b")]]
      (Or.inl rfl) rfl (List.all_eq_true.mp rfl)).2 (List.any_eq_true.mp rfl),
   (C4_remove_filters_and_not_found "twitter" "zz"
      (FS.empty.set get_twitter_cache_path
        (some (.json (.obj [("accounts",
          .arr [.obj [("id", .str "a")], .obj [("id", .str "b")]])]))))
      [.obj [("id", .str "a")], .obj [("id", .str "b")]]
      (Or.inl rfl) rfl (List.all_eq_true.mp rfl)).1
      (forall_mem_beq_false_of_all _ "zz" rfl)⟩

/-- C5: on a well-formed collection, with the write phase succeeding,
`update` returns not-found exactly when no record's id matches (leaving
the collection unchanged); otherwise the first matching record is merged
with the patch — patch keys overwrite or are added, keys not in the
patch keep their previous value — and every other record is untouched. -/
theorem C5_update_merges_first_match (provider account_id : String)
    (updates : List (String × Json)) (fs : FS) (xs : List Json)
    (hp : provider = "twitter" ∨ provider = "youtube")
    (hv : accountsView provider fs = .arr xs)
    (hwf : ∀ a ∈ xs, a.isObj = true) :
    ((∀ a ∈ xs, Json.beq (recId a) (.str account_id) = false) →
      (update_account .ok provider account_id updates fs).1 = .ok false ∧
      accountsView provider
        (update_account .ok provider account_id updates fs).2 = .arr xs) ∧
    ((∃ a ∈ xs, Json.beq (recId a) (.str account_id) = true) →
      ∃ pre fields post,
        xs = pre ++ .obj fields :: post ∧
        (∀ a ∈ pre, Json.beq (recId a) (.str account_id) = false) ∧
        Json.beq (getId fields) (.str account_id) = true ∧
        (update_account .ok provider account_id updates fs).1 = .ok true ∧
        accountsView provider
          (update_account .ok provider account_id updates fs).2 =
          .arr (pre ++ .obj (dictUpdate fields updates) :: post) ∧
        (∀ k, (∀ kv ∈ updates, kv.1 ≠ k) →
          lookupKey (dictUpdate fields updates) k = lookupKey fields k) ∧
        ((updates.map Prod.fst).Nodup →
          ∀ kv ∈ updates,
            lookupKey (dictUpdate fields updates) kv.1 = some kv.2)) := by
  constructor
  · intro hnm
    rw [update_account_nomatch .ok provider account_id updates fs xs hp hv hwf
      hnm]
    exact ⟨rfl, by rw [accountsView_read_snd provider fs, hv]⟩
  · intro hm
    obtain ⟨fr, hfr⟩ := updateFirst_isOk account_id updates xs hwf
    obtain ⟨f, r⟩ := fr
    cases f with
    | false =>
        rcases updateFirst_ok_false account_id updates xs r hfr with ⟨_, hall⟩
        rcases hm with ⟨a, ha, hba⟩
        rw [(hall a ha).2] at hba
        cases hba
    | true =>
        rcases updateFirst_ok_true account_id updates xs r hfr with
          ⟨pre, fields, post, hx, hr, hpre, hmt⟩
        refine ⟨pre, fields, post, hx, fun a ha => (hpre a ha).2, hmt, ?_, ?_,
          ?_, ?_⟩
        · rw [update_account_found .ok provider account_id updates fs xs r hp
            hv hfr]
          rfl
        · rw [update_account_found .ok provider account_id updates fs xs r hp
            hv hfr]
          subst hr
          exact accountsView_write_ok provider _ _ _
            (read_fst_isObj fs (provider_path provider) account_default rfl)
        · intro k hk
          exact lookupKey_dictUpdate_notin fields updates k hk
        · intro hnd kv hkv
          obtain ⟨k, v⟩ := kv
          exact lookupKey_dictUpdate_mem fields updates k v hnd hkv

/-- C5 (witness): updating an existing record's `nickname` (overwriting
one key, preserving the others) and updating an absent id. -/
theorem C5_update_merges_first_match_witness :
    (∃ pre fields post,
        [Json.obj [("id", .str "a"), ("nickname", .str "X")]] =
          pre ++ .obj fields :: post ∧
        (∀ a ∈ pre, Json.beq (recId a) (.str "a") = false) ∧
        Json.beq (getId fields) (.str "a") = true ∧
        (update_account .ok "twitter" "a" [("nickname", .str "Y")]
            (FS.empty.set get_twitter_cache_path
              (some (.json (.obj [("accounts",
                .arr [.obj [("id", .str "a"),
                  ("nickname", .str "X")]])]))))).1 = .ok true ∧
        accountsView "twitter"
          (update_account .ok "twitter" "a" [("nickname", .str "Y")]
            (FS.empty.set get_twitter_cache_path
              (some (.json (.obj [("accounts",
                .arr [.obj [("id", .str "a"),
                  ("nickname", .str "X")]])]))))).2 =
          .arr (pre ++
            .obj (dictUpdate fields [("nickname", .str "Y")]) :: post) ∧
        (∀ k, (∀ kv ∈ [(("nickname" : String), Json.str "Y")], kv.1 ≠ k) →
          lookupKey (dictUpdate fields [("nickname", .str "Y")]) k =
            lookupKey fields k) ∧
        (([(("nickname" : String), Json.str "Y")].map Prod.fst).Nodup →
          ∀ kv ∈ [(("nickname" : String), Json.str "Y")],
            lookupKey (dictUpdate fields [("nickname", .str "Y")]) kv.1 =
              some kv.2)) ∧
    ((update_account .ok "twitter" "zz" [("nickname", .str "Y")]
        (FS.empty.set get_twitter_cache_path
          (some (.json (.obj [("accounts",
            .arr [.obj [("id", .str "a"),
              ("nickname", .str "X")]])]))))).1 = .ok false ∧
      accountsView "twitter"
        (update_account .ok "twitter" "zz" [("nickname", .str "Y")]
          (FS.empty.set get_twitter_cache_path
            (some (.json (.obj [("accounts",
              .arr [.obj [("id", .str "a"),
                ("nickname", .str "X")]])]))))).2 =
        .arr [.obj [("id", .str "a"), ("nickname", .str "X")]]) :=
  ⟨(C5_update_merges_first_match "twitter" "a" [("nickname", .str "Y")]
      (FS.empty.set get_twitter_cache_path
        (some (.json (.obj [("accounts",
          .arr [.obj [("id", .str "a"), ("nickname", .str "X")]])]))))
      [.obj [("id", .str "a"), ("nickname", .str "X")]]
      (Or.inl rfl) rfl (List.all_eq_true.mp rfl)).2 (List.any_eq_true.mp rfl),
   (C5_update_merges_first_match "twitter" "zz" [("nickname", .str "Y")]
      (FS.empty.set get_twitter_cache_path
        (some (.json (.obj [("accounts",
          .arr [.obj [("id", .str "a"), ("nickname", .str "X")]])]))))
      [.obj [("id", .str "a"), ("nickname", .str "X")]]
      (Or.inl rfl) rfl (List.all_eq_true.mp rfl)).1
      (forall_mem_beq_false_of_all _ "zz" rfl)⟩

/-- C6: insert requires the record to contain an `id`: a record without
the `id` key always raises `ValueError` (for accounts and for
products); and on a valid provider and well-formed collection, a record
that does contain a non-empty string `id` never raises — the call
returns a boolean (success or rejected), whatever the write outcome. -/
theorem C6_insert_requires_id :
    (∀ fm provider account fs, account.hasKey "id" = false →
      (add_account fm provider account fs).1 = .error .valueError) ∧
    (∀ fm product fs, product.hasKey "id" = false →
      (add_product fm product fs).1 = .error .valueError) ∧
    (∀ fm provider account fs xs s,
      (provider = "twitter" ∨ provider = "youtube") →
      account.isObj = true →
      account.getD "id" .null = .str s → s ≠ "" →
      accountsView provider fs = .arr xs →
      (∀ a ∈ xs, a.isObj = true) →
      ∃ b, (add_account fm provider account fs).1 = .ok b) := by
  refine ⟨?_, ?_, ?_⟩
  · intro fm provider account fs h
    unfold add_account
    by_cases hp : provider = "twitter" ∨ provider = "youtube"
    · rw [if_pos hp, if_neg (by simp [h])]
    · rw [if_neg hp]
  · intro fm product fs h
    unfold add_product
    rw [if_neg (by simp [h])]
  · intro fm provider account fs xs s hp hobj hgid hs hv hwf
    have hid : account.hasKey "id" = true := by
      rcases (Json.isObj_iff account).mp hobj with ⟨f, rfl⟩
      simp only [Json.getD] at hgid
      rcases hl : lookupKey f "id" with _ | v
      · rw [hl] at hgid
        cases hgid
      · simp [Json.hasKey, hl]
    by_cases hdup : ∃ a ∈ xs,
        Json.beq (account.getD "id" .null) (recId a) = true
    · rw [add_account_dup fm provider account fs xs hp hobj hid hv hwf hdup]
      exact ⟨false, rfl⟩
    · have hfresh : ∀ a ∈ xs,
          Json.beq (account.getD "id" .null) (recId a) = false := by
        intro a ha
        rcases Bool.eq_false_or_eq_true
            (Json.beq (account.getD "id" .null) (recId a)) with h | h
        · exact absurd ⟨a, ha, h⟩ hdup
        · exact h
      rw [add_account_fresh fm provider account fs xs hp hobj hid hv hwf
        hfresh]
      exact ⟨_, rfl⟩

/-- C6 (witness): a record without `id` raises; a record with the
non-empty id `"a1"` returns a boolean on an empty collection. -/
theorem C6_insert_requires_id_witness :
    (add_account .ok "twitter" (.obj [("nickname", .str "X")])
        FS.empty).1 = .error .valueError ∧
    (add_product .ok (.obj [("affiliate_link", .str "u")])
        FS.empty).1 = .error .valueError ∧
    ∃ b, (add_account .ok "twitter"
        (.obj [("id", .str "a1"), ("nickname", .str "X")]) FS.empty).1 =
      .ok b :=
  ⟨C6_insert_requires_id.1 .ok "twitter" (.obj [("nickname", .str "X")])
      FS.empty rfl,
   C6_insert_requires_id.2.1 .ok (.obj [("affiliate_link", .str "u")])
      FS.empty rfl,
   C6_insert_requires_id.2.2 .ok "twitter"
      (.obj [("id", .str "a1"), ("nickname", .str "X")]) FS.empty [] "a1"
      (Or.inl rfl) rfl rfl (by decide) rfl
      (fun a ha => absurd ha (List.not_mem_nil a))⟩

/-- C8: inserting a record whose id is fresh, with the write phase
succeeding, reports success, and the collection listed afterwards is
exactly the previous records with the inserted record appended, the
record's fields preserved verbatim. -/
theorem C8_insert_roundtrip (provider : String) (account : Json) (fs : FS)
    (xs : List Json)
    (hp : provider = "twitter" ∨ provider = "youtube")
    (hobj : account.isObj = true) (hid : account.hasKey "id" = true)
    (hv : accountsView provider fs = .arr xs)
    (hwf : ∀ a ∈ xs, a.isObj = true)
    (hfresh : ∀ a ∈ xs,
      Json.beq (account.getD "id" .null) (recId a) = false) :
    (add_account .ok provider account fs).1 = .ok true ∧
    accountsView provider (add_account .ok provider account fs).2 =
      .arr (xs ++ [account]) := by
  rw [add_account_fresh .ok provider account fs xs hp hobj hid hv hwf hfresh]
  exact ⟨rfl, accountsView_write_ok provider _ _ _
    (read_fst_isObj fs (provider_path provider) account_default rfl)⟩

/-- C8 (witness): the spec's scenario — inserting
`{"id": "a1", "nickname": "X"}` into an empty twitter collection, then
listing, yields exactly that record. -/
theorem C8_insert_roundtrip_witness :
    (add_account .ok "twitter"
        (.obj [("id", .str "a1"), ("nickname", .str "X")]) FS.empty).1 =
      .ok true ∧
    accountsView "twitter" (add_account .ok "twitter"
        (.obj [("id", .str "a1"), ("nickname", .str "X")]) FS.empty).2 =
      .arr ([] ++ [.obj [("id", .str "a1"), ("nickname", .str "X")]]) :=
  C8_insert_roundtrip "twitter"
    (.obj [("id", .str "a1"), ("nickname", .str "X")]) FS.empty []
    (Or.inl rfl) rfl rfl rfl
    (fun a ha => absurd ha (List.not_mem_nil a))
    (fun a ha => absurd ha (List.not_mem_nil a))

/-- C2 (counterexample): the claim says no operation — including
`update` with a patch containing an `id` key — produces two records with
the same id. But updating record `"a"` with the patch `{"id": "b"}`
succeeds and leaves two records whose id is `"b"`. -/
theorem C2_update_can_duplicate_ids :
    uniqueIds [.obj [("id", .str "a")], .obj [("id", .str "b")]] = true ∧
    (update_account .ok "twitter" "a" [("id", .str "b")]
        (FS.empty.set get_twitter_cache_path
          (some (.json (.obj [("accounts",
            .arr [.obj [("id", .str "a")], .obj [("id", .str "b")]])]))))).1 =
      .ok true ∧
    accountsView "twitter" (update_account .ok "twitter" "a"
        [("id", .str "b")]
        (FS.empty.set get_twitter_cache_path
          (some (.json (.obj [("accounts",
            .arr [.obj [("id", .str "a")], .obj [("id", .str "b")]])]))))).2 =
      .arr [.obj [("id", .str "b")], .obj [("id", .str "b")]] ∧
    uniqueIds [.obj [("id", .str "b")], .obj [("id", .str "b")]] = false :=
  ⟨rfl, rfl, rfl, rfl⟩

/-- C2 (amended): starting from a collection with pairwise-distinct ids,
insert of an existing id is rejected and leaves the collection
unchanged; insert of a fresh id, remove, and update with a patch that
does not contain an `id` key all preserve id-uniqueness; only update
with a patch that rewrites `id` can break it. -/
theorem C2_uniqueness_amended :
    (∀ fm provider account fs xs,
      (provider = "twitter" ∨ provider = "youtube") →
      account.isObj = true → account.hasKey "id" = true →
      accountsView provider fs = .arr xs →
      (∀ a ∈ xs, a.isObj = true) →
      (∃ a ∈ xs, Json.beq (account.getD "id" .null) (recId a) = true) →
      (add_account fm provider account fs).1 = .ok false ∧
      accountsView provider (add_account fm provider account fs).2 =
        .arr xs) ∧
    (∀ provider account fs xs,
      (provider = "twitter" ∨ provider = "youtube") →
      account.isObj = true → account.hasKey "id" = true →
      accountsView provider fs = .arr xs →
      (∀ a ∈ xs, a.isObj = true) →
      (∀ a ∈ xs, Json.beq (account.getD "id" .null) (recId a) = false) →
      uniqueIds xs = true →
      accountsView provider (add_account .ok provider account fs).2 =
        .arr (xs ++ [account]) ∧
      uniqueIds (xs ++ [account]) = true) ∧
    (∀ provider account_id fs xs,
      (provider = "twitter" ∨ provider = "youtube") →
      accountsView provider fs = .arr xs →
      (∀ a ∈ xs, a.isObj = true) →
      uniqueIds xs = true →
      ∃ ys, accountsView provider
          (remove_account .ok provider account_id fs).2 = .arr ys ∧
        uniqueIds ys = true) ∧
    (∀ provider account_id updates fs xs,
      (provider = "twitter" ∨ provider = "youtube") →
      accountsView provider fs = .arr xs →
      (∀ a ∈ xs, a.isObj = true) →
      uniqueIds xs = true →
      (∀ kv ∈ updates, kv.1 ≠ "id") →
      ∃ ys, accountsView provider
          (update_account .ok provider account_id updates fs).2 = .arr ys ∧
        uniqueIds ys = true) := by
  refine ⟨?_, ?_, ?_, ?_⟩
  · intro fm provider account fs xs hp hobj hid hv hwf hdup
    rw [add_account_dup fm provider account fs xs hp hobj hid hv hwf hdup]
    exact ⟨rfl, by rw [accountsView_read_snd provider fs, hv]⟩
  · intro provider account fs xs hp hobj hid hv hwf hfresh hu
    rw [add_account_fresh .ok provider account fs xs hp hobj hid hv hwf
      hfresh]
    refine ⟨accountsView_write_ok provider _ _ _
      (read_fst_isObj fs (provider_path provider) account_default rfl), ?_⟩
    refine (uniqueIds_append_singleton xs account).mpr ⟨?_, hu⟩
    intro b hb
    rw [recId_obj_getD account hobj]
    exact hfresh b hb
  · intro provider account_id fs xs hp hv hwf hu
    by_cases hm : ∃ a ∈ xs, Json.beq (recId a) (.str account_id) = true
    · rw [remove_account_match .ok provider account_id fs xs hp hv hwf hm]
      refine ⟨_, accountsView_write_ok provider _ _ _
        (read_fst_isObj fs (provider_path provider) account_default rfl), ?_⟩
      exact uniqueIds_sublist xs _ (List.filter_sublist xs) hu
    · have hnm : ∀ a ∈ xs, Json.beq (recId a) (.str account_id) = false := by
        intro a ha
        rcases Bool.eq_false_or_eq_true
            (Json.beq (recId a) (.str account_id)) with h | h
        · exact absurd ⟨a, ha, h⟩ hm
        · exact h
      rw [remove_account_nomatch .ok provider account_id fs xs hp hv hwf hnm]
      exact ⟨xs, by rw [accountsView_read_snd provider fs, hv], hu⟩
  · intro provider account_id updates fs xs hp hv hwf hu hnoid
    by_cases hm : ∃ a ∈ xs, Json.beq (recId a) (.str account_id) = true
    · obtain ⟨fr, hfr⟩ := updateFirst_isOk account_id updates xs hwf
      obtain ⟨f, r⟩ := fr
      cases f with
      | false =>
          rcases updateFirst_ok_false account_id updates xs r hfr with
            ⟨_, hall⟩
          rcases hm with ⟨a, ha, hba⟩
          rw [(hall a ha).2] at hba
          cases hba
      | true =>
          rcases updateFirst_ok_true account_id updates xs r hfr with
            ⟨pre, fields, post, hx, hr, hpre, hmt⟩
          rw [update_account_found .ok provider account_id updates fs xs r hp
            hv hfr]
          refine ⟨r, accountsView_write_ok provider _ _ _
            (read_fst_isObj fs (provider_path provider) account_default rfl),
            ?_⟩
          have hmap : r.map recId = xs.map recId := by
            subst hx hr
            simp [List.map_append, recId, getId,
              lookupKey_dictUpdate_notin fields updates "id" hnoid]
          exact uniqueIds_of_map_eq xs r hmap hu
    · have hnm : ∀ a ∈ xs, Json.beq (recId a) (.str account_id) = false := by
        intro a ha
        rcases Bool.eq_false_or_eq_true
            (Json.beq (recId a) (.str account_id)) with h | h
        · exact absurd ⟨a, ha, h⟩ hm
        · exact h
      rw [update_account_nomatch .ok provider account_id updates fs xs hp hv
        hwf hnm]
      exact ⟨xs, by rw [accountsView_read_snd provider fs, hv], hu⟩

/-- C2 (witness): a duplicate insert is rejected on a one-record
collection; a fresh insert into it keeps ids unique. -/
theorem C2_uniqueness_amended_witness :
    ((add_account .ok "twitter" (.obj [("id", .str "a")])
        (FS.empty.set get_twitter_cache_path
          (some (.json (.obj [("accounts",
            .arr [.obj [("id", .str "a")]])]))))).1 = .ok false ∧
      accountsView "twitter" (add_account .ok "twitter"
          (.obj [("id", .str "a")])
          (FS.empty.set get_twitter_cache_path
            (some (.json (.obj [("accounts",
              .arr [.obj [("id", .str "a")]])]))))).2 =
        .arr [.obj [("id", .str "a")]]) ∧
    (accountsView "twitter" (add_account .ok "twitter"
          (.obj [("id", .str "b")])
          (FS.empty.set get_twitter_cache_path
            (some (.json (.obj [("accounts",
              .arr [.obj [("id", .str "a")]])]))))).2 =
        .arr ([.obj [("id", .str "a")]] ++ [.obj [("id", .str "b")]]) ∧
      uniqueIds ([.obj [("id", .str "a")]] ++ [.obj [("id", .str "b")]]) =
        true) :=
  ⟨C2_uniqueness_amended.1 .ok "twitter" (.obj [("id", .str "a")])
      (FS.empty.set get_twitter_cache_path
        (some (.json (.obj [("accounts", .arr [.obj [("id", .str "a")]])]))))
      [.obj [("id", .str "a")]]
      (Or.inl rfl) rfl rfl rfl (List.all_eq_true.mp rfl)
      (List.any_eq_true.mp rfl),
   C2_uniqueness_amended.2.1 "twitter" (.obj [("id", .str "b")])
      (FS.empty.set get_twitter_cache_path
        (some (.json (.obj [("accounts", .arr [.obj [("id", .str "a")]])]))))
      [.obj [("id", .str "a")]]
      (Or.inl rfl) rfl rfl rfl (List.all_eq_true.mp rfl)
      (fun a ha => by
        rcases List.mem_singleton.mp ha with rfl
        rfl) rfl⟩

/-- C10: every operation addressed at one collection leaves the backing
documents of the other collections unchanged, whatever the state and
whatever the write-phase outcome; `clear` with a specific provider
removes at most that provider's document; only `clear` with no provider
touches (removes) all three documents. -/
theorem C10_cross_collection_isolation :
    (∀ fs, (get_accounts "twitter" fs).2 get_youtube_cache_path =
      fs get_youtube_cache_path) ∧
    (∀ fs, (get_accounts "twitter" fs).2 get_afm_cache_path =
      fs get_afm_cache_path) ∧
    (∀ fs, (get_accounts "youtube" fs).2 get_twitter_cache_path =
      fs get_twitter_cache_path) ∧
    (∀ fs, (get_accounts "youtube" fs).2 get_afm_cache_path =
      fs get_afm_cache_path) ∧
    (∀ fm account fs, (add_account fm "twitter" account fs).2
      get_youtube_cache_path = fs get_youtube_cache_path) ∧
    (∀ fm account fs, (add_account fm "twitter" account fs).2
      get_afm_cache_path = fs get_afm_cache_path) ∧
    (∀ fm account fs, (add_account fm "youtube" account fs).2
      get_twitter_cache_path = fs get_twitter_cache_path) ∧
    (∀ fm account fs, (add_account fm "youtube" account fs).2
      get_afm_cache_path = fs get_afm_cache_path) ∧
    (∀ fm account_id fs, (remove_account fm "twitter" account_id fs).2
      get_youtube_cache_path = fs get_youtube_cache_path) ∧
    (∀ fm account_id fs, (remove_account fm "twitter" account_id fs).2
      get_afm_cache_path = fs get_afm_cache_path) ∧
    (∀ fm account_id fs, (remove_account fm "youtube" account_id fs).2
      get_twitter_cache_path = fs get_twitter_cache_path) ∧
    (∀ fm account_id fs, (remove_account fm "youtube" account_id fs).2
      get_afm_cache_path = fs get_afm_cache_path) ∧
    (∀ fm account_id updates fs,
      (update_account fm "twitter" account_id updates fs).2
        get_youtube_cache_path = fs get_youtube_cache_path) ∧
    (∀ fm account_id updates fs,
      (update_account fm "twitter" account_id updates fs).2
        get_afm_cache_path = fs get_afm_cache_path) ∧
    (∀ fm account_id updates fs,
      (update_account fm "youtube" account_id updates fs).2
        get_twitter_cache_path = fs get_twitter_cache_path) ∧
    (∀ fm account_id updates fs,
      (update_account fm "youtube" account_id updates fs).2
        get_afm_cache_path = fs get_afm_cache_path) ∧
    (∀ fs, (get_products fs).2 get_twitter_cache_path =
      fs get_twitter_cache_path) ∧
    (∀ fs, (get_products fs).2 get_youtube_cache_path =
      fs get_youtube_cache_path) ∧
    (∀ fm product fs, (add_product fm product fs).2 get_twitter_cache_path =
      fs get_twitter_cache_path) ∧
    (∀ fm product fs, (add_product fm product fs).2 get_youtube_cache_path =
      fs get_youtube_cache_path) ∧
    (∀ fs, (clear_cache (some "twitter") fs).2 get_youtube_cache_path =
      fs get_youtube_cache_path) ∧
    (∀ fs, (clear_cache (some "twitter") fs).2 get_afm_cache_path =
      fs get_afm_cache_path) ∧
    (∀ fs, (clear_cache (some "youtube") fs).2 get_twitter_cache_path =
      fs get_twitter_cache_path) ∧
    (∀ fs, (clear_cache (some "youtube") fs).2 get_afm_cache_path =
      fs get_afm_cache_path) ∧
    (∀ fs, (clear_cache (some "afm") fs).2 get_twitter_cache_path =
      fs get_twitter_cache_path) ∧
    (∀ fs, (clear_cache (some "afm") fs).2 get_youtube_cache_path =
      fs get_youtube_cache_path) ∧
    (∀ fs, (clear_cache none fs).2 get_twitter_cache_path = none) ∧
    (∀ fs, (clear_cache none fs).2 get_youtube_cache_path = none) ∧
    (∀ fs, (clear_cache none fs).2 get_afm_cache_path = none) := by
  refine ⟨fun fs => get_accounts_frame "twitter" fs _ (by decide),
    fun fs => get_accounts_frame "twitter" fs _ (by decide),
    fun fs => get_accounts_frame "youtube" fs _ (by decide),
    fun fs => get_accounts_frame "youtube" fs _ (by decide),
    fun fm account fs =>
      add_account_frame fm "twitter" account fs _ (by decide) (by decide),
    fun fm account fs =>
      add_account_frame fm "twitter" account fs _ (by decide) (by decide),
    fun fm account fs =>
      add_account_frame fm "youtube" account fs _ (by decide) (by decide),
    fun fm account fs =>
      add_account_frame fm "youtube" account fs _ (by decide) (by decide),
    fun fm account_id fs =>
      remove_account_frame fm "twitter" account_id fs _ (by decide)
        (by decide),
    fun fm account_id fs =>
      remove_account_frame fm "twitter" account_id fs _ (by decide)
        (by decide),
    fun fm account_id fs =>
      remove_account_frame fm "youtube" account_id fs _ (by decide)
        (by decide),
    fun fm account_id fs =>
      remove_account_frame fm "youtube" account_id fs _ (by decide)
        (by decide),
    fun fm account_id updates fs =>
      update_account_frame fm "twitter" account_id updates fs _ (by decide)
        (by decide),
    fun fm account_id updates fs =>
      update_account_frame fm "twitter" account_id updates fs _ (by decide)
        (by decide),
    fun fm account_id updates fs =>
      update_account_frame fm "youtube" account_id updates fs _ (by decide)
        (by decide),
    fun fm account_id updates fs =>
      update_account_frame fm "youtube" account_id updates fs _ (by decide)
        (by decide),
    fun fs => get_products_frame fs _ (by decide),
    fun fs => get_products_frame fs _ (by decide),
    fun fm product fs =>
      add_product_frame fm product fs _ (by decide) (by decide),
    fun fm product fs =>
      add_product_frame fm product fs _ (by decide) (by decide),
    fun fs => removeIfExists_frame fs get_twitter_cache_path _ (by decide),
    fun fs => removeIfExists_frame fs get_twitter_cache_path _ (by decide),
    fun fs => removeIfExists_frame fs get_youtube_cache_path _ (by decide),
    fun fs => removeIfExists_frame fs get_youtube_cache_path _ (by decide),
    fun fs => removeIfExists_frame fs get_afm_cache_path _ (by decide),
    fun fs => removeIfExists_frame fs get_afm_cache_path _ (by decide),
    ?_, ?_, ?_⟩
  · intro fs
    show removeIfExists (removeIfExists (removeIfExists fs
        get_twitter_cache_path) get_youtube_cache_path) get_afm_cache_path
      get_twitter_cache_path = none
    rw [removeIfExists_frame _ _ _ (by decide),
      removeIfExists_frame _ _ _ (by decide), removeIfExists_at]
  · intro fs
    show removeIfExists (removeIfExists (removeIfExists fs
        get_twitter_cache_path) get_youtube_cache_path) get_afm_cache_path
      get_youtube_cache_path = none
    rw [removeIfExists_frame _ _ _ (by decide), removeIfExists_at]
  · intro fs
    exact removeIfExists_at _ _

end Cache
